import Mathlib

/-!
Verification of the content-creator publishing pipeline.

Shallow embedding of the core components:
- `src/src/utils/retry.ts` (bounded retry with error classification),
- `src/src/services/database.service.ts` (`markPostFailed`, the WorkItem
  retry/reschedule transition),
- `src/src/services/publisher.service.ts` (`processPost` failure handling),
- the content-generation service (`generateContentIteratively`, `rateContent`),
- the adapter registry (`getAdapter`, `loadAdapter`, `clearCache`).

External collaborators (OpenAI completions, Supabase, dynamic module import)
are modelled as explicit oracle parameters; thrown JS exceptions become
`Except` values; JS numbers used as scores and counters become `Int` / `Nat`;
dates are abstracted to a day index (the source advances `publish_date` by one
calendar day via `setDate(getDate() + 1)`).
-/

deriving instance DecidableEq for Except

namespace ContentCreator

/-! ## JavaScript string primitives used by the source -/

/-- A thrown JavaScript value: either an `Error` instance carrying a message,
or a non-`Error` value (whose `String(...)` rendering we keep). -/
inductive JsError where
  | error (message : String)
  | nonError (rendered : String)
deriving DecidableEq

/-- `error instanceof Error ? error.message : String(error)`. -/
def JsError.messageOf : JsError → String
  | .error m => m
  | .nonError r => r

/-- Whether `pat` occurs at the head of `l` (char-list version). -/
def headMatches : List Char → List Char → Bool
  | [], _ => true
  | _ :: _, [] => false
  | a :: as, b :: bs => a = b && headMatches as bs

/-- Helper for `includes`: scan every suffix of `l` for `pat` at its head. -/
def includesAux (pat : List Char) : List Char → Bool
  | [] => pat.isEmpty
  | l@(_ :: rest) => headMatches pat l || includesAux pat rest

/-- `String.prototype.includes`: substring containment. -/
def includes (s pat : String) : Bool :=
  includesAux pat.toList s.toList

/-! ## `src/src/utils/retry.ts` -/

/-- Retry configuration (`RetryConfig`). Delays do not affect any observable
value or control flow, so only `maxRetries` is consulted by the executor. -/
structure RetryConfig where
  maxRetries : Nat
  initialDelayMs : Nat
  maxDelayMs : Nat
  backoffMultiplier : Nat
deriving DecidableEq

/-- `DEFAULT_RETRY_CONFIG` from `retry.ts`. -/
def DEFAULT_RETRY_CONFIG : RetryConfig :=
  { maxRetries := 3, initialDelayMs := 1000, maxDelayMs := 30000, backoffMultiplier := 2 }

/-- `isRetryableError` from `retry.ts`: message-substring classification.
Non-`Error` values are retried; network/timeout/rate-limit/5xx messages are
retryable; auth/4xx messages are not; anything else defaults to retryable. -/
def isRetryableError (e : JsError) : Bool :=
  match e with
  | .nonError _ => true
  | .error msg =>
    if includes msg "ECONNREFUSED" || includes msg "ETIMEDOUT" then true
    else if includes msg "rate limit" || includes msg "429" then true
    else if includes msg "503" || includes msg "504" then true
    else if includes msg "401" || includes msg "403" ||
            includes msg "authentication" || includes msg "unauthorized" then false
    else if includes msg "400" || includes msg "404" then false
    else true

/-- The wrapped error thrown after the retry loop exhausts all attempts:
`` `${context} failed after ${maxRetries + 1} attempts: ${message}` ``. -/
def wrapExhausted (context : String) (attempts : Nat) (e : JsError) : JsError :=
  .error (context ++ " failed after " ++ toString attempts ++ " attempts: " ++ e.messageOf)

/-- The loop body of `retryWithBackoff`. `attempt` is the current 0-based
attempt index, `fuel = maxRetries - attempt` the number of attempts still
allowed after this one. Returns the outcome together with the number of
invocations of `op` performed. Mirrors the source exactly: on the final
attempt (`attempt === maxRetries`) the loop breaks and the wrapped
exhaustion error is thrown; on earlier attempts a non-retryable error is
rethrown as-is, a retryable one leads to another attempt. -/
def retryLoop (op : Nat → Except JsError α) (context : String) (maxRetries : Nat) :
    Nat → Nat → Except JsError α × Nat
  | attempt, 0 =>
    match op attempt with
    | .ok v => (.ok v, 1)
    | .error e => (.error (wrapExhausted context (maxRetries + 1) e), 1)
  | attempt, fuel + 1 =>
    match op attempt with
    | .ok v => (.ok v, 1)
    | .error e =>
      if isRetryableError e then
        let r := retryLoop op context maxRetries (attempt + 1) fuel
        (r.1, r.2 + 1)
      else (.error e, 1)

/-- `retryWithBackoff` from `retry.ts`. The operation is an oracle giving the
outcome of each 0-based attempt. The second component counts how many times
the operation was invoked. -/
def retryWithBackoff (op : Nat → Except JsError α) (maxRetries : Nat) (context : String) :
    Except JsError α × Nat :=
  retryLoop op context maxRetries 0 maxRetries

/-! ## `src/src/services/database.service.ts` — WorkItem state -/

/-- WorkItem status (`posts.status`). -/
inductive PostStatus where
  | pending
  | processing
  | published
  | failed
deriving DecidableEq

/-- The fields of a `Post` row that `markPostFailed` reads or writes.
`publishDate` abstracts the calendar date to a day index; the source's
`setDate(getDate() + 1)` is exactly `+ 1` on that index. -/
structure Post where
  status : PostStatus
  retryCount : Nat
  maxRetries : Nat
  publishDate : Nat
  errorMessage : Option String
deriving DecidableEq

/-- `markPostFailed` from `database.service.ts`:
increment the retry count; if the new count is still below `maxRetries`,
return to `pending` and reschedule one day later, otherwise mark `failed`;
persist the error message in both cases. -/
def markPostFailed (post : Post) (errorMessage : String) : Post :=
  let newRetryCount := post.retryCount + 1
  let shouldRetry := newRetryCount < post.maxRetries
  { status := if shouldRetry then .pending else .failed
    retryCount := newRetryCount
    maxRetries := post.maxRetries
    publishDate := if shouldRetry then post.publishDate + 1 else post.publishDate
    errorMessage := some errorMessage }

/-! ## `src/src/services/publisher.service.ts` — failure handling -/

/-- The error taxonomy of the spec (`{Transient, Fatal, Logic}`). -/
inductive ErrorKind where
  | transient
  | fatal
  | logic
deriving DecidableEq

/-- An error reaching `processPost`'s catch block, tagged with its kind.
The source's catch block only extracts the message. -/
structure RunError where
  kind : ErrorKind
  message : String
deriving DecidableEq

/-- The catch block of `processPost` in `publisher.service.ts`: every failure
of the pipeline, whatever its kind, is handed to `markPostFailed` with its
message; no classification of the error occurs at the WorkItem level. -/
def processPostOnFailure (post : Post) (e : RunError) : Post :=
  markPostFailed post e.message

/-! ## Content generation service — data model -/

/-- Platform-agnostic content artifact (title and body; media/metadata play
no role in the refinement loop's control flow). -/
structure Content where
  title : String
  body : String
deriving DecidableEq

/-- One location-scoped actionable improvement inside a quality rating. -/
structure ActionableImprovement where
  location : String
  issue : String
  action : String
  source_reference : Option String
deriving DecidableEq

/-- `QualityRating` as produced by `rateContent`. -/
structure QualityRating where
  score : Int
  feedback : String
  areas_to_improve : List String
  actionable_improvements : List ActionableImprovement
  word_count : Nat
  structure_score : Int
  depth_score : Int
  engagement_score : Int
deriving DecidableEq

/-- One entry of the iteration history (`IterationHistory`). -/
structure IterationHistory where
  iteration_number : Nat
  content : Content
  rating : QualityRating
deriving DecidableEq

/-- Research material: the merged search results (abstracted to their count
and snippets; only presence/absence matters to the refinement loop). -/
structure ResearchResult where
  results : List String
deriving DecidableEq

/-- The slice of `ContentGenerationRequest` the refinement loop consults. -/
structure GenRequest where
  title : String
  research : Option ResearchResult
deriving DecidableEq

/-! ## `rateContent` -/

/-- The fields of the JSON object returned by the rating LLM call, each
optional (the source accesses them with `||`-defaults). -/
structure RatingJson where
  score : Option Int
  feedback : Option String
  areas_to_improve : Option (List String)
  actionable_improvements : Option (List ActionableImprovement)
  structure_score : Option Int
  depth_score : Option Int
  engagement_score : Option Int
deriving DecidableEq

/-- JS `x || d` for a possibly-absent number: absent and `0` (falsy) both
yield the default. -/
def jsOrNum (v : Option Int) (d : Int) : Int :=
  match v with
  | none => d
  | some x => if x = 0 then d else x

/-- JS `x || d` for a possibly-absent string: absent and `""` (falsy) both
yield the default. -/
def jsOrStr (v : Option String) (d : String) : String :=
  match v with
  | none => d
  | some x => if x = "" then d else x

/-- `String.prototype.split(/\s+/)` on a char list: pieces between maximal
whitespace runs, with an empty piece at a boundary that starts or ends the
string. `cur` accumulates the current piece reversed; `inWs` records whether
the previous character was part of a whitespace run just split on. -/
def jsSplitWsAux : List Char → List Char → Bool → List String
  | [], cur, _ => [String.mk cur.reverse]
  | c :: rest, cur, inWs =>
    if c.isWhitespace then
      if inWs then jsSplitWsAux rest cur true
      else String.mk cur.reverse :: jsSplitWsAux rest [] true
    else jsSplitWsAux rest (c :: cur) false

/-- `content.body.split(/\s+/).length` — the word count measured by
`rateContent`. -/
def countWords (s : String) : Nat :=
  (jsSplitWsAux s.toList [] false).length

/-- `rateContent` from the content-generation service. The LLM call and the
JSON parse are modelled together as one `Except`-valued oracle outcome: `.ok`
carries the parsed rating JSON, `.error` stands for a failed completion call
or unparseable response. On success each field falls back to its `||`
default; on any failure the catch block returns the neutral rating
(score 6, all sub-scores 6) with the measured word count — it never throws. -/
def rateContent (llmOutcome : Except String RatingJson) (content : Content) : QualityRating :=
  match llmOutcome with
  | .ok rating =>
    { score := jsOrNum rating.score 5
      feedback := jsOrStr rating.feedback "No feedback provided"
      areas_to_improve := rating.areas_to_improve.getD []
      actionable_improvements := rating.actionable_improvements.getD []
      word_count := countWords content.body
      structure_score := jsOrNum rating.structure_score 5
      depth_score := jsOrNum rating.depth_score 5
      engagement_score := jsOrNum rating.engagement_score 5 }
  | .error _ =>
    { score := 6
      feedback := "Rating failed - using default score"
      areas_to_improve := ["Unable to assess quality"]
      actionable_improvements := []
      word_count := countWords content.body
      structure_score := 6
      depth_score := 6
      engagement_score := 6 }

/-! ## `generateContentIteratively` -/

/-- The LLM-backed collaborators of one refinement run, as deterministic
oracles indexed by iteration number:
`generateContent` is the initial generation (its thrown error, if any,
already wrapped by `generateContent`'s own catch); `rateLLM i c` is the
outcome of the rating completion call at iteration `i` on content `c`
(consumed by `rateContent`, which is total); `improveContent i` is the
improvement call of iteration `i` (may throw); `decide i cur prev` is the
agentic continue/stop judgment after iteration `i` (`shouldContinue`). -/
structure EngineOracle where
  generateContent : Except String Content
  rateLLM : Nat → Content → Except String RatingJson
  improveContent : Nat → Content → QualityRating → ResearchResult → List IterationHistory →
    Except String Content
  decide : Nat → QualityRating → QualityRating → Bool

/-- `MAX_SAFETY_ITERATIONS` — the hard safety limit of the loop. -/
def MAX_SAFETY_ITERATIONS : Nat := 6

/-- The improvement loop of `generateContentIteratively`
(`for (let i = 2; i <= Math.min(maxIterations, MAX_SAFETY_ITERATIONS); i++)`),
with `fuel` the number of loop iterations still allowed
(`min maxIterations MAX_SAFETY_ITERATIONS - 1` initially, so the loop body
runs for `i = 2 … min maxIterations MAX_SAFETY_ITERATIONS`). Each body run:
if no research is available, warn and break; otherwise improve (a thrown
error aborts the run), re-rate (total), append the record for iteration `i`;
stop when the target score is reached or the agentic judgment says stop. -/
def iterLoop (oracle : EngineOracle) (minScore : Int) (research : Option ResearchResult) :
    Nat → Nat → Content → QualityRating → List IterationHistory →
    Except String (Content × List IterationHistory)
  | 0, _, c, _, iters => .ok (c, iters)
  | fuel + 1, i, c, r, iters =>
    match research with
    | none => .ok (c, iters)
    | some res =>
      match oracle.improveContent i c r res iters with
      | .error e => .error e
      | .ok c2 =>
        if (rateContent (oracle.rateLLM i c2) c2).score ≥ minScore then
          .ok (c2, iters ++ [⟨i, c2, rateContent (oracle.rateLLM i c2) c2⟩])
        else if oracle.decide i (rateContent (oracle.rateLLM i c2) c2) r then
          iterLoop oracle minScore research fuel (i + 1) c2
            (rateContent (oracle.rateLLM i c2) c2)
            (iters ++ [⟨i, c2, rateContent (oracle.rateLLM i c2) c2⟩])
        else .ok (c2, iters ++ [⟨i, c2, rateContent (oracle.rateLLM i c2) c2⟩])

/-- `generateContentIteratively` from the content-generation service.
Iteration 1 generates and rates the initial draft and records it; if its
score already meets `minScore` the run returns at once. Otherwise the
improvement loop runs for `i = 2 … min maxIterations MAX_SAFETY_ITERATIONS`.
Any error thrown inside is wrapped by the outer catch as
`Iterative content generation failed: …`. -/
def generateContentIteratively (oracle : EngineOracle) (request : GenRequest)
    (maxIterations : Nat) (minScore : Int) :
    Except String (Content × List IterationHistory) :=
  let result : Except String (Content × List IterationHistory) :=
    match oracle.generateContent with
    | .error e => .error e
    | .ok c1 =>
      let r1 := rateContent (oracle.rateLLM 1 c1) c1
      let iters1 : List IterationHistory := [⟨1, c1, r1⟩]
      if r1.score ≥ minScore then .ok (c1, iters1)
      else
        iterLoop oracle minScore request.research
          (min maxIterations MAX_SAFETY_ITERATIONS - 1) 2 c1 r1 iters1
  match result with
  | .error e => .error ("Iterative content generation failed: " ++ e)
  | .ok v => .ok v

/-! ## Adapter registry -/

/-- The slice of `ProjectConfig` the registry consults. -/
structure ProjectConfig where
  id : String
  platformType : String
deriving DecidableEq

/-- The platform identifiers whose adapter module ships in the repository's
`src/adapters` directory with a default-exported adapter class:
`custom-backend-v1.adapter.ts` (`CustomBackendV1Adapter`),
`petili.adapter.ts` (`PetiliAdapter`), `duospace.adapter.ts`
(`DuospaceAdapter`), `duospace-supabase.adapter.ts`
(`DuospaceSupabaseAdapter`) and `supabase-publisher.adapter.ts`
(`SupabasePublisherAdapter`). `base.adapter.ts` is the abstract base class
(no default export, and no `BaseAdapter` named export), so it is not a
loadable adapter. -/
def registeredAdapters : List String :=
  ["custom-backend-v1", "petili", "duospace", "duospace-supabase", "supabase-publisher"]

/-- Whether the dynamic import of the file named after `platformType` plus
the adapter suffix resolves to a loadable adapter module with a usable
adapter class. -/
def adapterModuleExists (platformType : String) : Bool :=
  registeredAdapters.contains platformType

/-- The error message thrown by `loadAdapter`'s catch block. The inner
cause (module-resolution error text) is runtime-specific and abstracted. -/
def loadErrorMsg (platformType : String) : String :=
  "Failed to load adapter for platform type \"" ++ platformType ++ "\""

/-- Registry state. Live adapter instances are represented by identifiers
allocated from the `nextId` counter, so distinct constructions yield
distinct identifiers (reference inequality). `authLog` records, in order,
each instance on which `authenticate()` was invoked. -/
structure RegistryState where
  adapters : List (String × Nat)
  nextId : Nat
  authLog : List Nat
deriving DecidableEq

/-- The fresh registry (the source's initial static `Map`). -/
def emptyRegistry : RegistryState :=
  { adapters := [], nextId := 0, authLog := [] }

/-- `` `${platformType}-${config.id}` `` — the cache key. -/
def cacheKey (config : ProjectConfig) : String :=
  config.platformType ++ "-" ++ config.id

/-- `AdapterRegistry.loadAdapter`: resolve the platform identifier to an
adapter module and construct a fresh instance from it, or throw the
`Failed to load adapter …` error. `nextId` names the fresh instance. -/
def loadAdapter (platformType : String) (nextId : Nat) : Except String Nat :=
  if adapterModuleExists platformType then .ok nextId
  else .error (loadErrorMsg platformType)

/-- `AdapterRegistry.getAdapter`: return the cached instance for the key if
present; otherwise load the adapter (propagating a load failure with the
cache untouched), invoke `authenticate()` on the new instance, cache it and
return it. -/
def getAdapter (st : RegistryState) (config : ProjectConfig) :
    Except String Nat × RegistryState :=
  match st.adapters.lookup (cacheKey config) with
  | some inst => (.ok inst, st)
  | none =>
    match loadAdapter config.platformType st.nextId with
    | .error e => (.error e, st)
    | .ok inst =>
      (.ok inst,
        { adapters := (cacheKey config, inst) :: st.adapters
          nextId := st.nextId + 1
          authLog := st.authLog ++ [inst] })

/-- `AdapterRegistry.clearCache`: drop every cached adapter (the id counter
and the record of past authentications are not part of the source's state;
they are bookkeeping of the model and survive). -/
def clearCache (st : RegistryState) : RegistryState :=
  { adapters := [], nextId := st.nextId, authLog := st.authLog }

/-- Well-formedness of a registry state: every cached instance was allocated
below the fresh counter. Holds for `emptyRegistry` and is preserved by
`getAdapter` and `clearCache`. -/
def RegistryWF (st : RegistryState) : Prop :=
  ∀ p ∈ st.adapters, p.2 < st.nextId

instance (st : RegistryState) : Decidable (RegistryWF st) :=
  inferInstanceAs (Decidable (∀ p ∈ st.adapters, p.2 < st.nextId))

/-! ## Theorems — WorkItem failure transition (C1, C4) -/

/-- A processing post with retries remaining (`retryCount = 0`,
`maxRetries = 3`), hit by a Fatal (401) publish error. -/
def postC1 : Post :=
  { status := .processing, retryCount := 0, maxRetries := 3,
    publishDate := 100, errorMessage := none }

/-- C1 counterexample: a WorkItem whose processing attempt fails with a
Fatal error while retries remain does NOT transition to `failed` — the
orchestrator's catch block never consults the error kind and
`markPostFailed` sends it back to `pending`. The claim's "exactly when the
triggering error is Fatal or retries are exhausted" is therefore false. -/
theorem fatal_with_retries_goes_pending :
    (processPostOnFailure postC1
        ⟨.fatal, "Publishing failed: 401 unauthorized"⟩).status = .pending ∧
    (processPostOnFailure postC1
        ⟨.fatal, "Publishing failed: 401 unauthorized"⟩).status ≠ .failed ∧
    postC1.retryCount + 1 < postC1.maxRetries := by
  decide

/-- C1 (amended): when a processing WorkItem's attempt fails, the transition
out of `processing` goes to `failed` exactly when its retries are exhausted
(the incremented retryCount has reached the ceiling), irrespective of the
triggering error's kind; and at the moment status becomes `failed` the
persisted retryCount is at least the ceiling. -/
theorem failed_iff_retries_exhausted (post : Post) (e : RunError) :
    ((processPostOnFailure post e).status = .failed ↔
      post.maxRetries ≤ post.retryCount + 1) ∧
    ((processPostOnFailure post e).status = .failed →
      post.maxRetries ≤ (processPostOnFailure post e).retryCount) := by
  unfold processPostOnFailure markPostFailed
  by_cases h : post.retryCount + 1 < post.maxRetries
  · simp only [h, if_true]
    constructor
    · constructor
      · intro hcontra; exact absurd hcontra (by decide)
      · intro hle; omega
    · intro hcontra; exact absurd hcontra (by decide)
  · simp only [h, if_false]
    constructor
    · constructor
      · intro _; omega
      · intro _; trivial
    · intro _; omega

/-- C4: a processing WorkItem that fails while retries remain
(`retryCount + 1 < maxRetries`) returns to `pending`, with retryCount
incremented by exactly 1, the scheduled date advanced by exactly one day,
and the error message persisted. -/
theorem transient_failure_reschedules (post : Post) (msg : String)
    (h : post.retryCount + 1 < post.maxRetries) :
    markPostFailed post msg =
      { status := .pending
        retryCount := post.retryCount + 1
        maxRetries := post.maxRetries
        publishDate := post.publishDate + 1
        errorMessage := some msg } := by
  unfold markPostFailed
  simp only [h, if_true]

/-- C4 witness: spec scenario 4 — a simulated network timeout on attempt 1
of a WorkItem with retry ceiling 3: back to `pending`, `retryCount = 1`,
date advanced from day 100 to day 101, error message stored. -/
theorem transient_failure_reschedules_witness :
    (0 + 1 < 3) ∧
    markPostFailed
        { status := .processing, retryCount := 0, maxRetries := 3,
          publishDate := 100, errorMessage := none }
        "Publishing failed: ETIMEDOUT" =
      { status := .pending, retryCount := 1, maxRetries := 3,
        publishDate := 101, errorMessage := some "Publishing failed: ETIMEDOUT" } :=
  ⟨by decide,
    transient_failure_reschedules
      { status := .processing, retryCount := 0, maxRetries := 3,
        publishDate := 100, errorMessage := none }
      "Publishing failed: ETIMEDOUT" (by decide)⟩

/-! ## Theorems — retry executor (C7) -/

/-- The retry loop invokes the operation at most `fuel + 1` times. -/
theorem retryLoop_calls_le (op : Nat → Except JsError α) (ctx : String) (mr : Nat) :
    ∀ fuel attempt, (retryLoop op ctx mr attempt fuel).2 ≤ fuel + 1 := by
  intro fuel
  induction fuel with
  | zero =>
    intro attempt
    unfold retryLoop
    cases op attempt <;> simp
  | succ n ih =>
    intro attempt
    unfold retryLoop
    cases hop : op attempt with
    | ok v => simp
    | error e =>
      by_cases hr : isRetryableError e
      · simp only [hr, if_true]
        have := ih (attempt + 1)
        omega
      · simp [hr]

/-- If attempts `attempt … attempt+a-1` all raise retryable errors and a
strictly-earlier-than-final attempt `attempt + a` (`a < fuel`) raises a
non-retryable error `e`, the loop rethrows `e` itself after exactly `a + 1`
invocations. -/
theorem retryLoop_fatal (op : Nat → Except JsError α) (ctx : String) (mr : Nat) :
    ∀ (a fuel attempt : Nat), a < fuel →
      (∀ j, j < a → ∃ e', op (attempt + j) = .error e' ∧ isRetryableError e' = true) →
      ∀ e, op (attempt + a) = .error e → isRetryableError e = false →
      retryLoop op ctx mr attempt fuel = (.error e, a + 1) := by
  intro a
  induction a with
  | zero =>
    intro fuel attempt hlt _hprev e hop hf
    obtain ⟨f, rfl⟩ : ∃ f, fuel = f + 1 := ⟨fuel - 1, by omega⟩
    unfold retryLoop
    rw [show op attempt = .error e from by simpa using hop]
    simp [hf]
  | succ a ih =>
    intro fuel attempt hlt hprev e hop hf
    obtain ⟨f, rfl⟩ : ∃ f, fuel = f + 1 := ⟨fuel - 1, by omega⟩
    obtain ⟨e0, hop0, hr0⟩ := hprev 0 (by omega)
    unfold retryLoop
    rw [show op attempt = .error e0 from by simpa using hop0]
    simp only [hr0, if_true]
    have hrec := ih f (attempt + 1) (by omega)
      (fun j hj => by
        obtain ⟨e', h1, h2⟩ := hprev (j + 1) (by omega)
        refine ⟨e', ?_, h2⟩
        rw [show attempt + 1 + j = attempt + (j + 1) from by omega]
        exact h1)
      e (by rw [show attempt + 1 + a = attempt + (a + 1) from by omega]; exact hop) hf
    rw [hrec]

/-- C7 counterexample: with `maxRetries = 0`, a Fatal (401) error on the
only (final) attempt is NOT rethrown as-is — the executor throws the
wrapped exhaustion error instead, so "rethrows that error" fails on the
final attempt. -/
theorem retry_fatal_final_attempt_wrapped :
    isRetryableError (.error "401 unauthorized") = false ∧
    (retryWithBackoff (fun _ => (.error (.error "401 unauthorized") : Except JsError Nat))
        0 "Operation").1 =
      .error (.error "Operation failed after 1 attempts: 401 unauthorized") ∧
    (retryWithBackoff (fun _ => (.error (.error "401 unauthorized") : Except JsError Nat))
        0 "Operation").1 ≠
      .error (.error "401 unauthorized") := by
  decide

/-- C7 (amended): whenever a NON-final attempt (`a < maxRetries`) of the
retry executor raises an error the classifier deems non-retryable, after
earlier attempts raised only retryable errors, the executor rethrows that
very error immediately with exactly `a + 1` invocations performed (the
remaining retries are not consumed); and in all cases the operation is
invoked at most `maxRetries + 1` times. (A fatal error on the final attempt
is instead reported through the wrapped exhaustion error.) -/
theorem retry_fatal_aborts (op : Nat → Except JsError α) (mr : Nat) (ctx : String)
    (a : Nat) (ha : a < mr)
    (hprev : ∀ j, j < a → ∃ e', op j = .error e' ∧ isRetryableError e' = true)
    (e : JsError) (hop : op a = .error e) (hf : isRetryableError e = false) :
    retryWithBackoff op mr ctx = (.error e, a + 1) ∧
    ∀ (op2 : Nat → Except JsError α) (mr2 : Nat) (ctx2 : String),
      (retryWithBackoff op2 mr2 ctx2).2 ≤ mr2 + 1 := by
  constructor
  · unfold retryWithBackoff
    refine retryLoop_fatal op ctx mr a mr 0 ha ?_ e (by simpa using hop) hf
    intro j hj
    simpa using hprev j hj
  · intro op2 mr2 ctx2
    exact retryLoop_calls_le op2 ctx2 mr2 mr2 0

/-- A concrete operation: a retryable timeout on attempt 0, then a fatal
401 error from attempt 1 on. -/
def opC7 : Nat → Except JsError Nat := fun n =>
  if n = 0 then .error (.error "connect ETIMEDOUT")
  else .error (.error "401 unauthorized")

/-- C7 witness: with `maxRetries = 3`, the fatal error of attempt index 1 is
rethrown as-is after exactly 2 invocations. -/
theorem retry_fatal_aborts_witness :
    (1 < 3 ∧ isRetryableError (.error "401 unauthorized") = false) ∧
    retryWithBackoff opC7 3 "Operation" = (.error (.error "401 unauthorized"), 2) :=
  ⟨⟨by decide, by decide⟩,
    (retry_fatal_aborts opC7 3 "Operation" 1 (by decide)
      (fun j hj => by
        interval_cases j
        exact ⟨.error "connect ETIMEDOUT", rfl, by decide⟩)
      (.error "401 unauthorized") rfl (by decide)).1⟩

/-! ## Loop lemmas for the refinement engine -/

/-- The improvement loop appends at most one record per unit of fuel. -/
theorem iterLoop_length (oracle : EngineOracle) (ms : Int) (res : Option ResearchResult) :
    ∀ fuel i c r iters c' out,
      iterLoop oracle ms res fuel i c r iters = .ok (c', out) →
      out.length ≤ iters.length + fuel := by
  intro fuel
  induction fuel with
  | zero =>
    intro i c r iters c' out h
    unfold iterLoop at h
    simp only [Except.ok.injEq, Prod.mk.injEq] at h
    obtain ⟨-, rfl⟩ := h
    simp
  | succ n ih =>
    intro i c r iters c' out h
    unfold iterLoop at h
    cases hres : res with
    | none =>
      rw [hres] at h
      dsimp only at h
      simp only [Except.ok.injEq, Prod.mk.injEq] at h
      obtain ⟨-, rfl⟩ := h
      omega
    | some resr =>
      rw [hres] at h
      dsimp only at h
      cases himp : oracle.improveContent i c r resr iters with
      | error e => rw [himp] at h; exact absurd h (by simp)
      | ok c2 =>
        rw [himp] at h
        dsimp only at h
        by_cases hsc : (rateContent (oracle.rateLLM i c2) c2).score ≥ ms
        · rw [if_pos hsc] at h
          simp only [Except.ok.injEq, Prod.mk.injEq] at h
          obtain ⟨-, rfl⟩ := h
          simp only [List.length_append, List.length_cons, List.length_nil]
          omega
        · rw [if_neg hsc] at h
          by_cases hd : oracle.decide i (rateContent (oracle.rateLLM i c2) c2) r = true
          · rw [if_pos hd] at h
            rw [← hres] at h
            have := ih (i + 1) c2 (rateContent (oracle.rateLLM i c2) c2)
              (iters ++ [⟨i, c2, rateContent (oracle.rateLLM i c2) c2⟩]) c' out h
            simp only [List.length_append, List.length_cons, List.length_nil] at this
            omega
          · rw [if_neg hd] at h
            simp only [Except.ok.injEq, Prod.mk.injEq] at h
            obtain ⟨-, rfl⟩ := h
            simp only [List.length_append, List.length_cons, List.length_nil]
            omega

/-- The improvement loop only ever appends to the record list. -/
theorem iterLoop_append (oracle : EngineOracle) (ms : Int) (res : Option ResearchResult) :
    ∀ fuel i c r iters c' out,
      iterLoop oracle ms res fuel i c r iters = .ok (c', out) →
      ∃ t, out = iters ++ t := by
  intro fuel
  induction fuel with
  | zero =>
    intro i c r iters c' out h
    unfold iterLoop at h
    simp only [Except.ok.injEq, Prod.mk.injEq] at h
    obtain ⟨-, rfl⟩ := h
    exact ⟨[], by simp⟩
  | succ n ih =>
    intro i c r iters c' out h
    unfold iterLoop at h
    cases hres : res with
    | none =>
      rw [hres] at h
      dsimp only at h
      simp only [Except.ok.injEq, Prod.mk.injEq] at h
      obtain ⟨-, rfl⟩ := h
      exact ⟨[], by simp⟩
    | some resr =>
      rw [hres] at h
      dsimp only at h
      cases himp : oracle.improveContent i c r resr iters with
      | error e => rw [himp] at h; exact absurd h (by simp)
      | ok c2 =>
        rw [himp] at h
        dsimp only at h
        by_cases hsc : (rateContent (oracle.rateLLM i c2) c2).score ≥ ms
        · rw [if_pos hsc] at h
          simp only [Except.ok.injEq, Prod.mk.injEq] at h
          obtain ⟨-, rfl⟩ := h
          exact ⟨[⟨i, c2, rateContent (oracle.rateLLM i c2) c2⟩], rfl⟩
        · rw [if_neg hsc] at h
          by_cases hd : oracle.decide i (rateContent (oracle.rateLLM i c2) c2) r = true
          · rw [if_pos hd] at h
            rw [← hres] at h
            obtain ⟨t, rfl⟩ := ih (i + 1) c2 (rateContent (oracle.rateLLM i c2) c2)
              (iters ++ [⟨i, c2, rateContent (oracle.rateLLM i c2) c2⟩]) c' out h
            exact ⟨⟨i, c2, rateContent (oracle.rateLLM i c2) c2⟩ :: t, by simp⟩
          · rw [if_neg hd] at h
            simp only [Except.ok.injEq, Prod.mk.injEq] at h
            obtain ⟨-, rfl⟩ := h
            exact ⟨[⟨i, c2, rateContent (oracle.rateLLM i c2) c2⟩], rfl⟩

/-- Appending the record whose sequence number continues `1 … length`
preserves the sequence-number invariant. -/
theorem seq_push (iters : List IterationHistory) (rec : IterationHistory)
    (hmap : iters.map (fun it => it.iteration_number) = List.range' 1 iters.length)
    (hrec : rec.iteration_number = iters.length + 1) :
    (iters ++ [rec]).map (fun it => it.iteration_number) =
      List.range' 1 (iters ++ [rec]).length := by
  rw [List.map_append, hmap, List.length_append]
  simp only [List.map_cons, List.map_nil, List.length_cons, List.length_nil]
  rw [show iters.length + (0 + 1) = iters.length + 1 from by omega]
  rw [List.range'_concat, Nat.one_mul, Nat.add_comm 1 iters.length, hrec]

/-- If the record list entering the loop carries sequence numbers
`1 … length` and the loop counter continues that sequence, the list leaving
the loop carries sequence numbers `1 … length` as well. -/
theorem iterLoop_seq (oracle : EngineOracle) (ms : Int) (res : Option ResearchResult) :
    ∀ fuel i c r iters c' out,
      iters.map (fun it => it.iteration_number) = List.range' 1 iters.length →
      i = iters.length + 1 →
      iterLoop oracle ms res fuel i c r iters = .ok (c', out) →
      out.map (fun it => it.iteration_number) = List.range' 1 out.length := by
  intro fuel
  induction fuel with
  | zero =>
    intro i c r iters c' out hmap _ h
    unfold iterLoop at h
    simp only [Except.ok.injEq, Prod.mk.injEq] at h
    obtain ⟨-, rfl⟩ := h
    exact hmap
  | succ n ih =>
    intro i c r iters c' out hmap hi h
    unfold iterLoop at h
    cases hres : res with
    | none =>
      rw [hres] at h
      dsimp only at h
      simp only [Except.ok.injEq, Prod.mk.injEq] at h
      obtain ⟨-, rfl⟩ := h
      exact hmap
    | some resr =>
      rw [hres] at h
      dsimp only at h
      cases himp : oracle.improveContent i c r resr iters with
      | error e => rw [himp] at h; exact absurd h (by simp)
      | ok c2 =>
        rw [himp] at h
        dsimp only at h
        have hmap2 := seq_push iters
          (⟨i, c2, rateContent (oracle.rateLLM i c2) c2⟩ : IterationHistory) hmap hi
        by_cases hsc : (rateContent (oracle.rateLLM i c2) c2).score ≥ ms
        · rw [if_pos hsc] at h
          simp only [Except.ok.injEq, Prod.mk.injEq] at h
          obtain ⟨-, rfl⟩ := h
          exact hmap2
        · rw [if_neg hsc] at h
          by_cases hd : oracle.decide i (rateContent (oracle.rateLLM i c2) c2) r = true
          · rw [if_pos hd] at h
            rw [← hres] at h
            refine ih (i + 1) c2 (rateContent (oracle.rateLLM i c2) c2)
              (iters ++ [⟨i, c2, rateContent (oracle.rateLLM i c2) c2⟩]) c' out hmap2 ?_ h
            simp only [List.length_append, List.length_cons, List.length_nil]
            omega
          · rw [if_neg hd] at h
            simp only [Except.ok.injEq, Prod.mk.injEq] at h
            obtain ⟨-, rfl⟩ := h
            exact hmap2

/-- Early acceptance: when the first iteration's rating already meets the
target, the run returns at once with that single record. Shared helper for
the early-stop and rating-failure theorems. -/
theorem genIter_accept_first (oracle : EngineOracle) (request : GenRequest)
    (maxIterations : Nat) (minScore : Int) (c1 : Content)
    (hgen : oracle.generateContent = .ok c1)
    (hscore : (rateContent (oracle.rateLLM 1 c1) c1).score ≥ minScore) :
    generateContentIteratively oracle request maxIterations minScore =
      .ok (c1, [⟨1, c1, rateContent (oracle.rateLLM 1 c1) c1⟩]) := by
  unfold generateContentIteratively
  rw [hgen]
  simp only [if_pos hscore]

/-! ## Concrete runs used by counterexamples and witnesses -/

/-- A small concrete content draft. -/
def contentW : Content :=
  { title := "Testing Improves Quality", body := "alpha beta gamma" }

/-- A rating JSON scoring 9 (above the default target of 8). -/
def ratingJsonHigh : RatingJson :=
  { score := some 9, feedback := some "publication-ready",
    areas_to_improve := some [], actionable_improvements := some [],
    structure_score := some 9, depth_score := some 9, engagement_score := some 9 }

/-- A rating JSON scoring 5 (below any target ≥ 6). -/
def ratingJsonLow : RatingJson :=
  { score := some 5, feedback := some "needs depth",
    areas_to_improve := some ["Depth"], actionable_improvements := some [],
    structure_score := some 5, depth_score := some 5, engagement_score := some 5 }

/-- An oracle whose rater always returns 9. -/
def oracleHigh : EngineOracle :=
  { generateContent := .ok contentW
    rateLLM := fun _ _ => .ok ratingJsonHigh
    improveContent := fun _ c _ _ _ => .ok c
    decide := fun _ _ _ => true }

/-- An oracle whose rater always returns 5. -/
def oracleLow : EngineOracle :=
  { generateContent := .ok contentW
    rateLLM := fun _ _ => .ok ratingJsonLow
    improveContent := fun _ c _ _ _ => .ok c
    decide := fun _ _ _ => true }

/-- An oracle whose rating LLM call always fails. -/
def oracleRaterFails : EngineOracle :=
  { generateContent := .ok contentW
    rateLLM := fun _ _ => .error "OpenAI completion failed"
    improveContent := fun _ c _ _ _ => .ok c
    decide := fun _ _ _ => true }

/-- A request with no grounding material. -/
def reqNoResearch : GenRequest :=
  { title := "Testing Improves Quality", research := none }

/-- A request with grounding material. -/
def reqResearch : GenRequest :=
  { title := "Testing Improves Quality", research := some { results := ["snippet one"] } }

/-- The parsed form of `ratingJsonHigh` for `contentW`. -/
def ratingHigh : QualityRating := rateContent (.ok ratingJsonHigh) contentW

/-- The parsed form of `ratingJsonLow` for `contentW`. -/
def ratingLow : QualityRating := rateContent (.ok ratingJsonLow) contentW

/-! ## Theorems — refinement engine (C2, C3, C5, C6, C10) -/

/-- C2 counterexample: with `maxIterations = 0` the engine still produces
one IterationRecord, exceeding `min maxIterations MAX_SAFETY_ITERATIONS = 0`,
so "at most min(maxIterations, safetyCap) for every input" is false. -/
theorem iterations_exceed_min_at_zero :
    generateContentIteratively oracleLow reqResearch 0 8 =
      .ok (contentW, [⟨1, contentW, ratingLow⟩]) ∧
    min 0 MAX_SAFETY_ITERATIONS <
      ([⟨1, contentW, ratingLow⟩] : List IterationHistory).length :=
  ⟨rfl, by decide⟩

/-- C2 (amended): for every refinement run with `maxIterations ≥ 1` — the
only regime in which `min maxIterations safetyCap` can bound the mandatory
first iteration — the number of IterationRecords produced is at most
`min maxIterations MAX_SAFETY_ITERATIONS`, regardless of any agentic
continue/stop decision. -/
theorem iterations_bounded (oracle : EngineOracle) (request : GenRequest)
    (maxIterations : Nat) (minScore : Int) (c : Content) (out : List IterationHistory)
    (hmax : 1 ≤ maxIterations)
    (h : generateContentIteratively oracle request maxIterations minScore = .ok (c, out)) :
    out.length ≤ min maxIterations MAX_SAFETY_ITERATIONS := by
  have h6 : MAX_SAFETY_ITERATIONS = 6 := rfl
  unfold generateContentIteratively at h
  cases hgen : oracle.generateContent with
  | error e => rw [hgen] at h; exact absurd h (by simp)
  | ok c1 =>
    rw [hgen] at h
    dsimp only at h
    by_cases hsc : (rateContent (oracle.rateLLM 1 c1) c1).score ≥ minScore
    · rw [if_pos hsc] at h
      dsimp only at h
      simp only [Except.ok.injEq, Prod.mk.injEq] at h
      obtain ⟨-, rfl⟩ := h
      simp only [List.length_cons, List.length_nil]
      omega
    · rw [if_neg hsc] at h
      cases hloop : iterLoop oracle minScore request.research
          (min maxIterations MAX_SAFETY_ITERATIONS - 1) 2 c1
          (rateContent (oracle.rateLLM 1 c1) c1)
          [⟨1, c1, rateContent (oracle.rateLLM 1 c1) c1⟩] with
      | error e => rw [hloop] at h; exact absurd h (by simp)
      | ok v =>
        rw [hloop] at h
        dsimp only at h
        simp only [Except.ok.injEq] at h
        subst h
        have hlen := iterLoop_length oracle minScore request.research
          (min maxIterations MAX_SAFETY_ITERATIONS - 1) 2 c1
          (rateContent (oracle.rateLLM 1 c1) c1)
          [⟨1, c1, rateContent (oracle.rateLLM 1 c1) c1⟩] c out hloop
        simp only [List.length_cons, List.length_nil] at hlen
        omega

/-- C2 witness: a run with `maxIterations = 4` accepted at iteration 1 has
1 ≤ min 4 6 records. -/
theorem iterations_bounded_witness :
    (1 ≤ 4 ∧
      generateContentIteratively oracleHigh reqResearch 4 8 =
        .ok (contentW, [⟨1, contentW, ratingHigh⟩])) ∧
    ([⟨1, contentW, ratingHigh⟩] : List IterationHistory).length ≤
      min 4 MAX_SAFETY_ITERATIONS :=
  ⟨⟨by decide, rfl⟩,
    iterations_bounded oracleHigh reqResearch 4 8 contentW
      [⟨1, contentW, ratingHigh⟩] (by decide) rfl⟩

/-- C3 counterexample: with no grounding material and a below-target first
score, an improvement round is attempted (`2 ≤ min 4 6`), yet the engine
returns the iteration-1 content successfully instead of aborting the run
with an error. -/
theorem no_research_run_succeeds :
    generateContentIteratively oracleLow reqNoResearch 4 8 =
      .ok (contentW, [⟨1, contentW, ratingLow⟩]) ∧
    2 ≤ min 4 MAX_SAFETY_ITERATIONS :=
  ⟨rfl, by decide⟩

/-- C3 (amended): if no grounding material is available when an improvement
round is attempted (first score below target), the engine breaks out of the
improvement loop and returns the iteration-1 content without error: the run
does not fail. -/
theorem no_research_stops_loop (oracle : EngineOracle) (request : GenRequest)
    (maxIterations : Nat) (minScore : Int) (c1 : Content)
    (hres : request.research = none)
    (hgen : oracle.generateContent = .ok c1)
    (hscore : (rateContent (oracle.rateLLM 1 c1) c1).score < minScore) :
    generateContentIteratively oracle request maxIterations minScore =
      .ok (c1, [⟨1, c1, rateContent (oracle.rateLLM 1 c1) c1⟩]) := by
  unfold generateContentIteratively
  rw [hgen, hres]
  simp only [if_neg (not_le.mpr hscore)]
  cases hfuel : min maxIterations MAX_SAFETY_ITERATIONS - 1 with
  | zero => rfl
  | succ n => rfl

/-- C3 witness: the amended behaviour at a concrete no-research run. -/
theorem no_research_stops_loop_witness :
    (reqNoResearch.research = none ∧
      oracleLow.generateContent = .ok contentW ∧
      (rateContent (oracleLow.rateLLM 1 contentW) contentW).score < 8) ∧
    generateContentIteratively oracleLow reqNoResearch 4 8 =
      .ok (contentW, [⟨1, contentW, rateContent (oracleLow.rateLLM 1 contentW) contentW⟩]) :=
  ⟨⟨rfl, rfl, by decide⟩,
    no_research_stops_loop oracleLow reqNoResearch 4 8 contentW rfl rfl (by decide)⟩

/-- C5: every completed refinement run returns IterationRecords whose
sequence numbers are exactly `1 … N` for some `N ≥ 1` (contiguous, strictly
increasing), and the improvement loop only ever appends to the list. -/
theorem iteration_numbers_contiguous (oracle : EngineOracle) (request : GenRequest)
    (maxIterations : Nat) (minScore : Int) (c : Content) (out : List IterationHistory)
    (h : generateContentIteratively oracle request maxIterations minScore = .ok (c, out)) :
    (1 ≤ out.length ∧
      out.map (fun it => it.iteration_number) = List.range' 1 out.length) ∧
    (∀ fuel i c0 r0 iters c1 out1,
      iterLoop oracle minScore request.research fuel i c0 r0 iters = .ok (c1, out1) →
      ∃ t, out1 = iters ++ t) := by
  constructor
  · unfold generateContentIteratively at h
    cases hgen : oracle.generateContent with
    | error e => rw [hgen] at h; exact absurd h (by simp)
    | ok c1 =>
      rw [hgen] at h
      dsimp only at h
      by_cases hsc : (rateContent (oracle.rateLLM 1 c1) c1).score ≥ minScore
      · rw [if_pos hsc] at h
        dsimp only at h
        simp only [Except.ok.injEq, Prod.mk.injEq] at h
        obtain ⟨-, rfl⟩ := h
        exact ⟨by simp, by simp [List.range']⟩
      · rw [if_neg hsc] at h
        cases hloop : iterLoop oracle minScore request.research
            (min maxIterations MAX_SAFETY_ITERATIONS - 1) 2 c1
            (rateContent (oracle.rateLLM 1 c1) c1)
            [⟨1, c1, rateContent (oracle.rateLLM 1 c1) c1⟩] with
        | error e => rw [hloop] at h; exact absurd h (by simp)
        | ok v =>
          rw [hloop] at h
          dsimp only at h
          simp only [Except.ok.injEq] at h
          subst h
          constructor
          · obtain ⟨t, ht⟩ := iterLoop_append oracle minScore request.research
              (min maxIterations MAX_SAFETY_ITERATIONS - 1) 2 c1
              (rateContent (oracle.rateLLM 1 c1) c1)
              [⟨1, c1, rateContent (oracle.rateLLM 1 c1) c1⟩] c out hloop
            rw [ht]
            simp
          · exact iterLoop_seq oracle minScore request.research
              (min maxIterations MAX_SAFETY_ITERATIONS - 1) 2 c1
              (rateContent (oracle.rateLLM 1 c1) c1)
              [⟨1, c1, rateContent (oracle.rateLLM 1 c1) c1⟩] c out
              (by simp [List.range']) (by simp) hloop
  · intro fuel i c0 r0 iters c1 out1 hl
    exact iterLoop_append oracle minScore request.research fuel i c0 r0 iters c1 out1 hl

/-- C5 witness: the sequence-number invariant at a concrete completed run. -/
theorem iteration_numbers_contiguous_witness :
    generateContentIteratively oracleHigh reqResearch 4 8 =
      .ok (contentW, [⟨1, contentW, ratingHigh⟩]) ∧
    (1 ≤ ([⟨1, contentW, ratingHigh⟩] : List IterationHistory).length ∧
      ([⟨1, contentW, ratingHigh⟩] : List IterationHistory).map
          (fun it => it.iteration_number) =
        List.range' 1 ([⟨1, contentW, ratingHigh⟩] : List IterationHistory).length) :=
  ⟨rfl,
    (iteration_numbers_contiguous oracleHigh reqResearch 4 8 contentW
      [⟨1, contentW, ratingHigh⟩] rfl).1⟩

/-- C6: if the first iteration's score meets the target, the run stops
immediately: exactly one IterationRecord exists and the returned final
content is iteration 1's content. -/
theorem early_acceptance (oracle : EngineOracle) (request : GenRequest)
    (maxIterations : Nat) (minScore : Int) (c1 : Content)
    (hgen : oracle.generateContent = .ok c1)
    (hscore : (rateContent (oracle.rateLLM 1 c1) c1).score ≥ minScore) :
    generateContentIteratively oracle request maxIterations minScore =
      .ok (c1, [⟨1, c1, rateContent (oracle.rateLLM 1 c1) c1⟩]) :=
  genIter_accept_first oracle request maxIterations minScore c1 hgen hscore

/-- C6 witness: spec scenario 1 — rater returns 9 on iteration 1 with
target 8: exactly one record, final content is iteration 1's content. -/
theorem early_acceptance_witness :
    (oracleHigh.generateContent = .ok contentW ∧
      (rateContent (oracleHigh.rateLLM 1 contentW) contentW).score ≥ 8) ∧
    generateContentIteratively oracleHigh reqResearch 4 8 =
      .ok (contentW, [⟨1, contentW, rateContent (oracleHigh.rateLLM 1 contentW) contentW⟩]) :=
  ⟨⟨rfl, by decide⟩, early_acceptance oracleHigh reqResearch 4 8 contentW rfl (by decide)⟩

/-- C10: the rating step is total — on a failed or unparseable rating call,
`rateContent` returns the neutral rating (overall 6, sub-scores 6, measured
word count) instead of throwing; consequently, with an always-failing rater
and any target ≤ 6, a refinement run is accepted at iteration 1 with that
default score, as if the content had met the target. -/
theorem rating_failure_defaults (content : Content) (err : String)
    (oracle : EngineOracle) (request : GenRequest)
    (maxIterations : Nat) (minScore : Int) (c1 : Content)
    (hms : minScore ≤ 6)
    (hgen : oracle.generateContent = .ok c1)
    (hfail : ∀ i c, ∃ m, oracle.rateLLM i c = .error m) :
    rateContent (.error err) content =
      { score := 6
        feedback := "Rating failed - using default score"
        areas_to_improve := ["Unable to assess quality"]
        actionable_improvements := []
        word_count := countWords content.body
        structure_score := 6
        depth_score := 6
        engagement_score := 6 } ∧
    generateContentIteratively oracle request maxIterations minScore =
      .ok (c1, [⟨1, c1, rateContent (oracle.rateLLM 1 c1) c1⟩]) ∧
    (rateContent (oracle.rateLLM 1 c1) c1).score = 6 := by
  obtain ⟨m, hm⟩ := hfail 1 c1
  refine ⟨rfl, ?_, ?_⟩
  · refine genIter_accept_first oracle request maxIterations minScore c1 hgen ?_
    rw [hm]
    exact hms
  · rw [hm]
    exact rfl

/-- C10 witness: a concrete run whose rater always fails, with target 6,
accepted at iteration 1 with the default score 6. -/
theorem rating_failure_defaults_witness :
    ((6 : Int) ≤ 6 ∧ oracleRaterFails.generateContent = .ok contentW) ∧
    (rateContent (.error "boom") contentW =
        { score := 6
          feedback := "Rating failed - using default score"
          areas_to_improve := ["Unable to assess quality"]
          actionable_improvements := []
          word_count := countWords contentW.body
          structure_score := 6
          depth_score := 6
          engagement_score := 6 } ∧
      generateContentIteratively oracleRaterFails reqResearch 4 6 =
        .ok (contentW,
          [⟨1, contentW, rateContent (oracleRaterFails.rateLLM 1 contentW) contentW⟩]) ∧
      (rateContent (oracleRaterFails.rateLLM 1 contentW) contentW).score = 6) :=
  ⟨⟨by decide, rfl⟩,
    rating_failure_defaults contentW "boom" oracleRaterFails reqResearch 4 6 contentW
      (by decide) rfl (fun _ _ => ⟨"OpenAI completion failed", rfl⟩)⟩

/-! ## Theorems — adapter registry (C8, C9) -/

/-- A successful cache lookup comes from a cached entry. -/
theorem lookup_mem_adapters :
    ∀ (l : List (String × Nat)) (k : String) (v : Nat),
      l.lookup k = some v → (k, v) ∈ l := by
  intro l
  induction l with
  | nil => intro k v h; simp [List.lookup] at h
  | cons p rest ih =>
    intro k v h
    obtain ⟨pk, pv⟩ := p
    rw [List.lookup] at h
    by_cases hk : k = pk
    · subst hk
      rw [show (k == k) = true from beq_self_eq_true k] at h
      dsimp only at h
      simp only [Option.some.injEq] at h
      subst h
      exact List.mem_cons_self _ _
    · have hne : (k == pk) = false := by
        simp [hk]
      rw [hne] at h
      exact List.mem_cons_of_mem _ (ih k v h)

/-- C8: from any well-formed registry state, a first `getAdapter` call that
returns instance `i` is followed by: a second call with the same
`(platformType, projectId)` key returning the identical instance `i` with
the state (and hence the authentication log) unchanged; and a call after
`clearCache` that constructs a different, fresh instance `j ≠ i` and
authenticates it (exactly one new `authenticate()` invocation). -/
theorem adapter_cache_reuse (st : RegistryState) (config : ProjectConfig)
    (i : Nat) (st1 : RegistryState) (j : Nat) (st2 : RegistryState)
    (hwf : RegistryWF st)
    (h1 : getAdapter st config = (.ok i, st1))
    (h2 : getAdapter (clearCache st1) config = (.ok j, st2)) :
    getAdapter st1 config = (.ok i, st1) ∧ j ≠ i ∧
    st2.authLog = st1.authLog ++ [j] := by
  unfold getAdapter at h1
  cases hl : st.adapters.lookup (cacheKey config) with
  | some inst =>
    rw [hl] at h1
    dsimp only at h1
    simp only [Prod.mk.injEq, Except.ok.injEq] at h1
    obtain ⟨rfl, rfl⟩ := h1
    have hi : inst < st.nextId := hwf _ (lookup_mem_adapters _ _ _ hl)
    refine ⟨?_, ?_, ?_⟩
    · unfold getAdapter
      rw [hl]
    · unfold getAdapter at h2
      simp only [clearCache, List.lookup] at h2
      unfold loadAdapter at h2
      by_cases hmod : adapterModuleExists config.platformType = true
      · rw [if_pos hmod] at h2
        dsimp only at h2
        simp only [Prod.mk.injEq, Except.ok.injEq] at h2
        obtain ⟨rfl, -⟩ := h2
        omega
      · rw [if_neg hmod] at h2
        exact absurd h2 (by simp)
    · unfold getAdapter at h2
      simp only [clearCache, List.lookup] at h2
      unfold loadAdapter at h2
      by_cases hmod : adapterModuleExists config.platformType = true
      · rw [if_pos hmod] at h2
        dsimp only at h2
        simp only [Prod.mk.injEq, Except.ok.injEq] at h2
        obtain ⟨rfl, rfl⟩ := h2
        rfl
      · rw [if_neg hmod] at h2
        exact absurd h2 (by simp)
  | none =>
    rw [hl] at h1
    dsimp only at h1
    unfold loadAdapter at h1
    by_cases hmod : adapterModuleExists config.platformType = true
    · rw [if_pos hmod] at h1
      dsimp only at h1
      simp only [Prod.mk.injEq, Except.ok.injEq] at h1
      obtain ⟨rfl, rfl⟩ := h1
      refine ⟨?_, ?_, ?_⟩
      · unfold getAdapter
        have hhit :
            (((cacheKey config, st.nextId) :: st.adapters).lookup (cacheKey config)) =
              some st.nextId := by
          rw [List.lookup]
          simp
        dsimp only
        rw [hhit]
      · unfold getAdapter at h2
        simp only [clearCache, List.lookup] at h2
        unfold loadAdapter at h2
        rw [if_pos hmod] at h2
        dsimp only at h2
        simp only [Prod.mk.injEq, Except.ok.injEq] at h2
        obtain ⟨rfl, -⟩ := h2
        omega
      · unfold getAdapter at h2
        simp only [clearCache, List.lookup] at h2
        unfold loadAdapter at h2
        rw [if_pos hmod] at h2
        dsimp only at h2
        simp only [Prod.mk.injEq, Except.ok.injEq] at h2
        obtain ⟨rfl, rfl⟩ := h2
        rfl
    · rw [if_neg hmod] at h1
      exact absurd h1 (by simp)

/-- The project powering the registry witnesses. -/
def cfgW : ProjectConfig := { id := "proj1", platformType := "duospace-supabase" }

/-- The state after the first `getAdapter` call on the fresh registry. -/
def st1W : RegistryState :=
  { adapters := [("duospace-supabase-proj1", 0)], nextId := 1, authLog := [0] }

/-- The state after `clearCache` and one further `getAdapter` call. -/
def st2W : RegistryState :=
  { adapters := [("duospace-supabase-proj1", 1)], nextId := 2, authLog := [0, 1] }

/-- C8 witness: the caching behaviour at a concrete registry run. -/
theorem adapter_cache_reuse_witness :
    (RegistryWF emptyRegistry ∧
      getAdapter emptyRegistry cfgW = (.ok 0, st1W) ∧
      getAdapter (clearCache st1W) cfgW = (.ok 1, st2W)) ∧
    (getAdapter st1W cfgW = (.ok 0, st1W) ∧ 1 ≠ 0 ∧
      st2W.authLog = st1W.authLog ++ [1]) :=
  ⟨⟨by decide, rfl, rfl⟩,
    adapter_cache_reuse emptyRegistry cfgW 0 st1W 1 st2W (by decide) rfl rfl⟩

/-- C9: a `platformId` that does not resolve to an adapter module makes
`getAdapter` raise the explicit `Failed to load adapter …` error, with the
registry state unchanged — nothing is cached for that key and no default
adapter is substituted. -/
theorem adapter_not_found (st : RegistryState) (config : ProjectConfig)
    (hmod : adapterModuleExists config.platformType = false)
    (hmiss : st.adapters.lookup (cacheKey config) = none) :
    getAdapter st config = (.error (loadErrorMsg config.platformType), st) := by
  unfold getAdapter
  rw [hmiss]
  dsimp only
  unfold loadAdapter
  rw [hmod]
  exact rfl

/-- A configuration naming an unregistered platform (spec scenario 6). -/
def cfgUnknown : ProjectConfig := { id := "proj1", platformType := "unknown-platform" }

/-- C9 witness: the fresh registry asked for `"unknown-platform"` raises the
explicit load error and stays unchanged. -/
theorem adapter_not_found_witness :
    (adapterModuleExists cfgUnknown.platformType = false ∧
      emptyRegistry.adapters.lookup (cacheKey cfgUnknown) = none) ∧
    getAdapter emptyRegistry cfgUnknown =
      (.error (loadErrorMsg cfgUnknown.platformType), emptyRegistry) :=
  ⟨⟨by decide, rfl⟩, adapter_not_found emptyRegistry cfgUnknown (by decide) rfl⟩

end ContentCreator
